/-
Verification of the catalog reconciliation and merge scripts of the
jade-three repository (scripts/fetch-releases.js, scripts/fetch-apple-music.js,
scripts/fetch-youtube.js) against their natural-language specification.

The JavaScript sources are shallowly embedded: pure helpers become Lean
functions on `String` / `List`; the network is an explicit oracle
(`Fetcher`); the single dataset file is explicit state threaded through the
run.  JS strings are modelled as Lean `String`; `x ?? y` on a possibly
missing value is `Option.getD`; JS truthiness of a string-or-null value is
`jsTruthy`.  `String.prototype.toLowerCase` is modelled on its ASCII
fragment (`asciiLower`), which is exact on every input the proved
properties depend on, because the scripts immediately filter to ASCII
alphanumerics or compare with ASCII literals.
-/
import Mathlib

namespace JadeThree

/-! ## JS string primitives -/

/-- ASCII fragment of `String.prototype.toLowerCase`: map `A`-`Z` to `a`-`z`. -/
def asciiLower (c : Char) : Char :=
  if 'A' ≤ c ∧ c ≤ 'Z' then Char.ofNat (c.toNat + 32) else c

/-- `toLowerCase` on a whole string. -/
def jsToLower (s : String) : String :=
  String.mk (s.data.map asciiLower)

/-- Keep-set of the regex `[^a-z0-9]` replacement: lowercase ASCII letters and digits. -/
def isLowerDigit (c : Char) : Bool :=
  ('a' ≤ c && c ≤ 'z') || ('0' ≤ c && c ≤ '9')

/-- `normalize` from scripts/fetch-apple-music.js line 28 and
scripts/fetch-youtube.js line 80:
`str.toLowerCase().replace(/[^a-z0-9]/g, '')`. -/
def normalize (s : String) : String :=
  String.mk ((s.data.map asciiLower).filter isLowerDigit)

/-- `a.startsWith b` on character lists. -/
def startsWithL : List Char → List Char → Bool
  | _, [] => true
  | [], _ :: _ => false
  | a :: as, b :: bs => a = b && startsWithL as bs

/-- JS `String.prototype.startsWith`. -/
def jsStartsWith (s pat : String) : Bool :=
  startsWithL s.data pat.data

/-- Contiguous-substring test on character lists (JS `includes`). -/
def containsL : List Char → List Char → Bool
  | [], pat => pat.isEmpty
  | s :: rest, pat => startsWithL (s :: rest) pat || containsL rest pat

/-- JS `String.prototype.includes`. -/
def jsIncludes (s pat : String) : Bool :=
  containsL s.data pat.data

/-- JS truthiness of a `string | null` value: `null` and `''` are falsy. -/
def jsTruthy : Option String → Bool
  | none => false
  | some s => s ≠ ""

/-- JS `String.prototype.trim`: drop leading and trailing whitespace. -/
def jsTrim (s : String) : String :=
  String.mk (((s.data.dropWhile Char.isWhitespace).reverse.dropWhile Char.isWhitespace).reverse)

/-- Remove one occurrence of `suf` from the end of `s` if present
(a `replace(/suf$/, '')` with a literal pattern). -/
def dropSuffixOnce (s suf : String) : String :=
  if startsWithL s.data.reverse suf.data.reverse then
    String.mk (s.data.take (s.data.length - suf.data.length))
  else s

/-- First `n` characters of `s` (JS `slice(0, n)` for `n ≥ 0`). -/
def jsTake (s : String) (n : Nat) : String :=
  String.mk (s.data.take n)

/-! ## Basic facts about the primitives -/

theorem isLowerDigit_not_upper {c : Char} (h : isLowerDigit c = true) :
    ¬('A' ≤ c ∧ c ≤ 'Z') := by
  rintro ⟨hA, hZ⟩
  simp only [isLowerDigit, Bool.or_eq_true, Bool.and_eq_true, decide_eq_true_eq] at h
  rcases h with ⟨ha, _⟩ | ⟨_, h9⟩
  · exact absurd (le_trans ha hZ) (by decide)
  · exact absurd (le_trans hA h9) (by decide)

theorem asciiLower_of_isLowerDigit {c : Char} (h : isLowerDigit c = true) :
    asciiLower c = c := by
  unfold asciiLower
  rw [if_neg (isLowerDigit_not_upper h)]

theorem mem_normalize_isLowerDigit {s : String} {c : Char}
    (h : c ∈ (normalize s).data) : isLowerDigit c = true := by
  unfold normalize at h
  exact (List.mem_filter.mp h).2

theorem normalize_idem (s : String) : normalize (normalize s) = normalize s := by
  unfold normalize
  congr 1
  have hmap : ((s.data.map asciiLower).filter isLowerDigit).map asciiLower
      = (s.data.map asciiLower).filter isLowerDigit := by
    rw [List.map_congr_left, List.map_id]
    intro c hc
    exact asciiLower_of_isLowerDigit (List.mem_filter.mp hc).2
  rw [hmap, List.filter_filter]
  simp

/-! ## Stable sort (model of `Array.prototype.sort` with a consistent comparator)

JS `sort` is stable; for the key-based comparators the scripts use, any
stable sort yields the same list, so a stable insertion sort is a faithful
model. -/

/-- Insert `x` before the first element `y` with `le x y`. -/
def insertLe (le : α → α → Bool) (x : α) : List α → List α
  | [] => [x]
  | y :: ys => if le x y then x :: y :: ys else y :: insertLe le x ys

/-- Stable insertion sort: `le a b` means `a` may come before `b`. -/
def sortLe (le : α → α → Bool) : List α → List α
  | [] => []
  | x :: xs => insertLe le x (sortLe le xs)

theorem mem_insertLe (le : α → α → Bool) (x : α) (l : List α) (a : α) :
    a ∈ insertLe le x l ↔ a = x ∨ a ∈ l := by
  induction l with
  | nil => simp [insertLe]
  | cons y ys ih =>
    unfold insertLe
    by_cases h : le x y = true
    · simp [h]
    · simp only [Bool.not_eq_true] at h
      simp [h, ih]
      tauto

theorem mem_sortLe (le : α → α → Bool) (l : List α) (a : α) :
    a ∈ sortLe le l ↔ a ∈ l := by
  induction l with
  | nil => simp [sortLe]
  | cons x xs ih => simp [sortLe, mem_insertLe, ih]

theorem sortLe_eq_nil_iff (le : α → α → Bool) (l : List α) :
    sortLe le l = [] ↔ l = [] := by
  cases l with
  | nil => simp [sortLe]
  | cons x xs =>
    simp only [sortLe]
    constructor
    · intro h
      have : x ∈ insertLe le x (sortLe le xs) := (mem_insertLe le x _ x).mpr (Or.inl rfl)
      rw [h] at this
      exact absurd this (List.not_mem_nil x)
    · intro h; exact absurd h (by simp)

/-- Pairwise sortedness with respect to a boolean `le`. -/
def SortedLe (le : α → α → Bool) (l : List α) : Prop :=
  l.Pairwise (fun a b => le a b = true)

theorem sortedLe_insertLe (le : α → α → Bool)
    (htrans : ∀ a b c, le a b = true → le b c = true → le a c = true)
    (htot : ∀ a b, le a b = true ∨ le b a = true)
    (x : α) (l : List α) (hl : SortedLe le l) :
    SortedLe le (insertLe le x l) := by
  induction l with
  | nil => simp [insertLe, SortedLe]
  | cons y ys ih =>
    unfold insertLe SortedLe
    rcases hl with _ | ⟨hy, hys⟩
    by_cases h : le x y = true
    · rw [if_pos h]
      refine List.Pairwise.cons ?_ (List.Pairwise.cons hy hys)
      intro b hb
      rcases List.mem_cons.mp hb with rfl | hb
      · exact h
      · exact htrans x y b h (hy b hb)
    · rw [if_neg h]
      refine List.Pairwise.cons ?_ (ih hys)
      intro b hb
      rcases (mem_insertLe le x ys b).mp hb with rfl | hb
      · rcases htot b y with hby | hyb
        · exact absurd hby h
        · exact hyb
      · exact hy b hb

theorem sortedLe_sortLe (le : α → α → Bool)
    (htrans : ∀ a b c, le a b = true → le b c = true → le a c = true)
    (htot : ∀ a b, le a b = true ∨ le b a = true) (l : List α) :
    SortedLe le (sortLe le l) := by
  induction l with
  | nil => exact List.Pairwise.nil
  | cons x xs ih => exact sortedLe_insertLe le htrans htot x (sortLe le xs) ih

/-- The head of a `sortLe`-sorted nonempty list is `le`-before every element
of the original list. -/
theorem head_sortLe_le (le : α → α → Bool)
    (htrans : ∀ a b c, le a b = true → le b c = true → le a c = true)
    (htot : ∀ a b, le a b = true ∨ le b a = true)
    (l : List α) (h : α) (t : List α) (heq : sortLe le l = h :: t) :
    ∀ a, a ∈ l → le h a = true := by
  intro a ha
  have hmem : a ∈ sortLe le l := (mem_sortLe le l a).mpr ha
  rw [heq] at hmem
  rcases List.mem_cons.mp hmem with rfl | hmem
  · rcases htot a a with h' | h' <;> exact h'
  · have hs := sortedLe_sortLe le htrans htot l
    rw [heq] at hs
    rcases hs with _ | ⟨hh, _⟩
    exact hh a hmem

/-! ## Data formatting helpers (scripts/fetch-releases.js lines 335-352) -/

/-- `padStart(2, '0')`. -/
def pad2 (s : String) : String :=
  String.mk (List.replicate (2 - s.data.length) '0') ++ s

/-- `formatDuration` (fetch-releases.js line 335): `Math.round(ms / 1000)`
then `M:SS`.  For a nonnegative integer `ms`, `Math.round(ms / 1000)`
equals `(ms + 500) / 1000` in natural division. -/
def formatDuration (ms : Nat) : String :=
  let totalSec := (ms + 500) / 1000
  let min := totalSec / 60
  let sec := totalSec % 60
  toString min ++ ":" ++ pad2 (toString sec)

/-- Modelled from the spec: the duration invariant's own formula,
`floor(durationMs/1000)` rendered as `M:SS` with the seconds zero-padded.
Stated only to be compared with the source's `formatDuration`. -/
def formatDurationSpec (ms : Nat) : String :=
  let totalSec := ms / 1000
  let min := totalSec / 60
  let sec := totalSec % 60
  toString min ++ ":" ++ pad2 (toString sec)

/-- One entry of a Spotify `images` array. -/
structure SpotifyImage where
  url : String
  width : Option Nat
  deriving Repr, DecidableEq

/-- `bestArtworkUrl` (fetch-releases.js line 342): sort descending by
`width ?? 0`, take the first image at least `minWidth` wide, else the
widest.  The source's default for `minWidth` is 600. -/
def bestArtworkUrl (images : Option (List SpotifyImage)) (minWidth : Nat := 600) : String :=
  match images with
  | none => ""
  | some imgs =>
    match sortLe (fun a b => b.width.getD 0 ≤ a.width.getD 0) imgs with
    | [] => ""
    | h :: t =>
      match (h :: t).find? (fun img => minWidth ≤ img.width.getD 0) with
      | some img => img.url
      | none => h.url

/-- `smallArtworkUrl` (fetch-releases.js line 348): sort ascending by
`width ?? 9999`, take the first. -/
def smallArtworkUrl (images : Option (List SpotifyImage)) : String :=
  match images with
  | none => ""
  | some imgs =>
    match sortLe (fun a b => a.width.getD 9999 ≤ b.width.getD 9999) imgs with
    | [] => ""
    | h :: _ => h.url

/-! ## Dataset data model (src/types/releases.ts) -/

structure Track where
  trackNumber : Nat
  title : String
  spotifyId : String
  spotifyUrl : String
  appleMusicUrl : Option String
  amazonMusicUrl : Option String
  youtubeUrl : Option String
  durationMs : Nat
  durationFormatted : String
  isExplicit : Bool
  deriving Repr, DecidableEq

structure Release where
  id : String
  rtype : String
  title : String
  releaseDate : String
  year : Option Int
  spotifyId : String
  spotifyUrl : String
  appleMusicUrl : Option String
  amazonMusicUrl : Option String
  youtubePlaylistUrl : Option String
  youtubeUrl : Option String
  artworkUrl : String
  artworkUrlSmall : String
  totalTracks : Nat
  tracks : List Track
  deriving Repr, DecidableEq

structure ReleasesData where
  lastUpdated : String
  artistName : String
  spotifyArtistId : String
  releases : List Release
  deriving Repr, DecidableEq

/-! ## Manual-field preservation (fetch-releases.js lines 365-385) -/

structure ManualUrls where
  appleMusicUrl : Option String
  amazonMusicUrl : Option String
  youtubePlaylistUrl : Option String
  youtubeUrl : Option String
  deriving Repr, DecidableEq

structure TrackManualUrls where
  appleMusicUrl : Option String
  amazonMusicUrl : Option String
  youtubeUrl : Option String
  deriving Repr, DecidableEq

/-- `preserveManualUrls` (fetch-releases.js line 365). -/
def preserveManualUrls (existing : ReleasesData) (spotifyId : String) : ManualUrls :=
  match existing.releases.find? (fun r => r.spotifyId == spotifyId) with
  | none => ⟨none, none, none, none⟩
  | some found =>
    ⟨found.appleMusicUrl, found.amazonMusicUrl, found.youtubePlaylistUrl, found.youtubeUrl⟩

/-- `preserveTrackManualUrls` (fetch-releases.js line 376). -/
def preserveTrackManualUrls (existing : ReleasesData) (spotifyId trackId : String) :
    TrackManualUrls :=
  match existing.releases.find? (fun r => r.spotifyId == spotifyId) with
  | none => ⟨none, none, none⟩
  | some release =>
    match release.tracks.find? (fun t => t.spotifyId == trackId) with
    | none => ⟨none, none, none⟩
    | some track => ⟨track.appleMusicUrl, track.amazonMusicUrl, track.youtubeUrl⟩

/-! ## Apple Music match selector (scripts/fetch-apple-music.js lines 41-63) -/

/-- One iTunes Search API result. -/
structure ItunesResult where
  collectionName : Option String
  collectionViewUrl : Option String
  deriving Repr, DecidableEq

/-- The cleaned candidate title of the first pass: the three sequential
`replace` calls of fetch-apple-music.js line 48, which drop a trailing
`single`, then a trailing `ep`, then a trailing `-` (each anchored at the
end, one occurrence), applied to the normalized collection name. -/
def cleanTitle (rTitle : String) : String :=
  dropSuffixOnce (dropSuffixOnce (dropSuffixOnce rTitle "single") "ep") "-"

/-- First-pass test of `findBestMatch`: stripped or unstripped normalized
candidate title equals the normalized target title. -/
def tier1Match (normalizedTitle : String) (r : ItunesResult) : Bool :=
  let rTitle := normalize (r.collectionName.getD "")
  cleanTitle rTitle == normalizedTitle || rTitle == normalizedTitle

/-- Second-pass test: normalized candidate title starts with the target. -/
def tier2Match (normalizedTitle : String) (r : ItunesResult) : Bool :=
  jsStartsWith (normalize (r.collectionName.getD "")) normalizedTitle

/-- `findBestMatch` (fetch-apple-music.js line 41): the two sequential
`for` loops with early return become two `find?` passes; on a hit the
loop returns `r.collectionViewUrl ?? null`. -/
def findBestMatch (results : List ItunesResult) (releaseTitle : String) : Option String :=
  let normalizedTitle := normalize releaseTitle
  match results.find? (tier1Match normalizedTitle) with
  | some r => r.collectionViewUrl
  | none =>
    match results.find? (tier2Match normalizedTitle) with
    | some r => r.collectionViewUrl
    | none => none

/-! ## YouTube match selector (scripts/fetch-youtube.js lines 84-130) -/

structure Snippet where
  channelTitle : Option String
  title : Option String
  deriving Repr, DecidableEq

/-- One YouTube search result (`item.snippet`, `item.id.videoId`,
`item.id.playlistId`). -/
structure SearchItem where
  snippet : Snippet
  videoId : Option String
  playlistId : Option String
  deriving Repr, DecidableEq

/-- `channelMatches` (fetch-youtube.js line 84): the lowercased channel
title contains `'jade'` or `'jade three'`; a missing channel title is
falsy via optional chaining. -/
def channelMatches (sn : Snippet) : Bool :=
  match sn.channelTitle with
  | none => false
  | some ct => jsIncludes (jsToLower ct) "jade" || jsIncludes (jsToLower ct) "jade three"

/-- The title heuristic of `findBestVideo`'s first pass:
`vidTitle.includes(normTitle) || normTitle.includes(vidTitle.slice(0, 6))`. -/
def videoTitleHeur (normTitle : String) (it : SearchItem) : Bool :=
  let vidTitle := normalize (it.snippet.title.getD "")
  jsIncludes vidTitle normTitle || jsIncludes normTitle (jsTake vidTitle 6)

/-- Video URL built at fetch-youtube.js line 97; a missing id interpolates
as the string `"undefined"` in JS. -/
def watchUrl (it : SearchItem) : String :=
  "https://www.youtube.com/watch?v=" ++ it.videoId.getD "undefined"

/-- Playlist URL built at fetch-youtube.js line 118. -/
def playlistUrl (it : SearchItem) : String :=
  "https://www.youtube.com/playlist?list=" ++ it.playlistId.getD "undefined"

/-- `findBestVideo` (fetch-youtube.js line 89): first pass requires channel
affinity and the title heuristic; second pass requires channel affinity
alone; else null. -/
def findBestVideo (items : List SearchItem) (releaseTitle : String) : Option String :=
  let normTitle := normalize releaseTitle
  match items.find? (fun it => channelMatches it.snippet && videoTitleHeur normTitle it) with
  | some it => some (watchUrl it)
  | none =>
    match items.find? (fun it => channelMatches it.snippet) with
    | some it => some (watchUrl it)
    | none => none

/-- `findBestPlaylist` (fetch-youtube.js line 111): same shape with the
playlist URL. -/
def findBestPlaylist (items : List SearchItem) (releaseTitle : String) : Option String :=
  let normTitle := normalize releaseTitle
  match items.find? (fun it => channelMatches it.snippet && videoTitleHeur normTitle it) with
  | some it => some (playlistUrl it)
  | none =>
    match items.find? (fun it => channelMatches it.snippet) with
    | some it => some (playlistUrl it)
    | none => none

/-! ## Confirmation prompt (fetch-youtube.js lines 136-143) -/

/-- `confirm` (fetch-youtube.js line 136) as a function of the operator's
raw answer: trim, accept on lowercased `y`, reject on lowercased `n` or
empty, otherwise treat the trimmed answer as a replacement URL. -/
def confirm (url answer : String) : Option String :=
  let trimmed := jsTrim answer
  if jsToLower trimmed == "y" then some url
  else if jsToLower trimmed == "n" || trimmed == "" then none
  else some trimmed

/-- The per-candidate field assignment of the driver loop
(fetch-youtube.js lines 184-191): on a truthy chosen value set
`release.youtubeUrl`, otherwise leave the release alone and add it to the
not-found report. -/
def applyVideoChoice (r : Release) (candidate answer : String) : Release × List String :=
  let chosen := confirm candidate answer
  if jsTruthy chosen then ({ r with youtubeUrl := chosen }, [])
  else (r, [r.title ++ " (video)"])

/-- The playlist-field assignment of the driver loop
(fetch-youtube.js lines 211-218). -/
def applyPlaylistChoice (r : Release) (candidate answer : String) : Release × List String :=
  let chosen := confirm candidate answer
  if jsTruthy chosen then ({ r with youtubePlaylistUrl := chosen }, [])
  else (r, [r.title ++ " (playlist)"])

/-! ## Video-platform backfill driver (scripts/fetch-youtube.js lines 148-240)

The YouTube search (network plus JSON parse) is an oracle from the query
string and the requested kind (`video` or `playlist`) to either a result
list or a thrown error message; the operator's raw prompt response is a
function of the same pair.  `findBestVideo`, `findBestPlaylist` and
`confirm` are pure and total, so each `try` block's only failure source is
the search. -/

/-- The search query built at fetch-youtube.js line 173. -/
def ytQuery (r : Release) : String := "Jade Three " ++ r.title

/-- One iteration of the video-platform backfill loop for a single release
(fetch-youtube.js lines 163-228): the two need flags are computed up
front; the video step runs when the release lacks a truthy `youtubeUrl`
(a thrown search error or no candidate adds `title (video)` to the
not-found report and leaves the release alone; a found candidate goes
through the confirmation prompt), then the playlist step does the same for
`youtubePlaylistUrl` on non-single releases. -/
def processYtRelease (oracle : String → String → Except String (List SearchItem))
    (answers : String → String → String) (r : Release) : Release × List String :=
  let needsVideo := !(jsTruthy r.youtubeUrl)
  let needsPlaylist := !(jsTruthy r.youtubePlaylistUrl) && !(r.rtype == "single")
  if !needsVideo && !needsPlaylist then (r, [])
  else
    let query := ytQuery r
    let stepV : Release × List String :=
      if needsVideo then
        match oracle query "video" with
        | Except.error _ => (r, [r.title ++ " (video)"])
        | Except.ok items =>
          match findBestVideo items r.title with
          | none => (r, [r.title ++ " (video)"])
          | some candidate =>
            if jsTruthy (some candidate) then
              applyVideoChoice r candidate (answers query "video")
            else (r, [r.title ++ " (video)"])
      else (r, [])
    let stepP : Release × List String :=
      if needsPlaylist then
        match oracle query "playlist" with
        | Except.error _ => (stepV.1, [r.title ++ " (playlist)"])
        | Except.ok items =>
          match findBestPlaylist items r.title with
          | none => (stepV.1, [r.title ++ " (playlist)"])
          | some candidate =>
            if jsTruthy (some candidate) then
              applyPlaylistChoice stepV.1 candidate (answers query "playlist")
            else (stepV.1, [r.title ++ " (playlist)"])
      else (stepV.1, [])
    (stepP.1, stepV.2 ++ stepP.2)

/-- The whole video-platform backfill run: process every release in
order, stamp `lastUpdated` (line 232), and pair the final document with
the not-found report. -/
def ytBackfill (oracle : String → String → Except String (List SearchItem))
    (answers : String → String → String) (data : ReleasesData) (stamp : String) :
    ReleasesData × List String :=
  let processed := data.releases.map (processYtRelease oracle answers)
  ({ data with releases := processed.map Prod.fst, lastUpdated := stamp },
   (processed.map Prod.snd).flatten)

/-! ## Apple Music backfill driver (scripts/fetch-apple-music.js lines 65-107)

The iTunes search (network plus JSON parse) is an oracle from the release
to either a result list or a thrown error message; `findBestMatch` itself
is pure and total, so the `try` block's only failure source is the search. -/

/-- One iteration of the backfill loop for a single release: skip when
`appleMusicUrl` is already truthy; on a thrown search error or a failed
match add the title to the not-found report and leave the release alone;
on a truthy matched URL assign it. -/
def processAppleRelease (oracle : Release → Except String (List ItunesResult))
    (r : Release) : Release × List String :=
  if jsTruthy r.appleMusicUrl then (r, [])
  else
    match oracle r with
    | Except.error _ => (r, [r.title])
    | Except.ok results =>
      let url := findBestMatch results r.title
      if jsTruthy url then ({ r with appleMusicUrl := url }, [])
      else (r, [r.title])

/-- The whole backfill run: process every release in order, stamp
`lastUpdated`, and pair the final document with the not-found report. -/
def appleBackfill (oracle : Release → Except String (List ItunesResult))
    (data : ReleasesData) (stamp : String) : ReleasesData × List String :=
  let processed := data.releases.map (processAppleRelease oracle)
  ({ data with releases := processed.map Prod.fst, lastUpdated := stamp },
   (processed.map Prod.snd).flatten)

/-- Observable file-system / console events of a run. -/
inductive FileEvent
  | write (d : ReleasesData)
  | print (line : String)
  deriving Repr, DecidableEq

def FileEvent.isWrite : FileEvent → Bool
  | FileEvent.write _ => true
  | FileEvent.print _ => false

/-- Event trace of the backfill run: `writeFileSync` is reached exactly
once, unconditionally after the loop (fetch-apple-music.js line 100), and
the not-found report is printed after the write (lines 103-106). -/
def appleBackfillEvents (oracle : Release → Except String (List ItunesResult))
    (data : ReleasesData) (stamp : String) : List FileEvent :=
  let run := appleBackfill oracle data stamp
  FileEvent.write run.1 :: run.2.map FileEvent.print

/-- Event trace of the video-platform backfill run: `writeFileSync` is
reached exactly once, unconditionally after the loop (fetch-youtube.js
line 233), and the not-found report is printed after the write (lines
236-239). -/
def ytBackfillEvents (oracle : String → String → Except String (List SearchItem))
    (answers : String → String → String) (data : ReleasesData) (stamp : String) :
    List FileEvent :=
  let run := ytBackfill oracle answers data stamp
  FileEvent.write run.1 :: run.2.map FileEvent.print

/-! ## Full resync (scripts/fetch-releases.js lines 296-485)

Network requests are explicit: a `Fetcher` is the remote end, a request
trace is accumulated, and the first error response aborts the remaining
computation (modelling a thrown exception).  The unbounded `while (url)`
pagination loops take a fuel bound; running out of fuel is an abort of its
own kind and never occurs in the concrete runs below. -/

structure AlbumObject where
  id : String
  name : String
  album_type : String
  release_date : String
  spotifyUrlField : Option String
  deriving Repr, DecidableEq

structure AlbumPaging where
  items : List AlbumObject
  next : Option String
  deriving Repr, DecidableEq

structure SpotifyTrackItem where
  track_number : Nat
  name : String
  id : String
  spotifyUrlField : Option String
  duration_ms : Option Nat
  explicitFlag : Option Bool
  deriving Repr, DecidableEq

structure TrackPaging where
  items : List SpotifyTrackItem
  next : Option String
  deriving Repr, DecidableEq

structure FullAlbum where
  images : Option (List SpotifyImage)
  tracksItems : List SpotifyTrackItem
  tracksNext : Option String
  total_tracks : Option Nat
  deriving Repr, DecidableEq

/-- One HTTP request of the resync run. -/
inductive Req
  | token
  | albumPage (url : String)
  | albumDetail (url : String)
  | trackPage (url : String)
  deriving Repr, DecidableEq

/-- The remote end: a typed response (or non-success status, as the thrown
error message) for every request kind. -/
structure Fetcher where
  tokenResp : Except String String
  albumPageResp : String → Except String AlbumPaging
  albumDetailResp : String → Except String FullAlbum
  trackPageResp : String → Except String TrackPaging

def isErr : Except ε α → Bool
  | Except.error _ => true
  | Except.ok _ => false

/-- Whether the fetcher answers a request with a non-success outcome. -/
def reqFails (f : Fetcher) : Req → Bool
  | Req.token => isErr f.tokenResp
  | Req.albumPage url => isErr (f.albumPageResp url)
  | Req.albumDetail url => isErr (f.albumDetailResp url)
  | Req.trackPage url => isErr (f.trackPageResp url)

/-- Computation that performed a request trace and either produced a value
or aborted with a thrown error. -/
def M (α : Type) : Type := List Req × Except String α

def mPure (a : α) : M α := ([], Except.ok a)

def mBind (m : M α) (k : α → M β) : M β :=
  match m with
  | (t, Except.error e) => (t, Except.error e)
  | (t, Except.ok a) => (t ++ (k a).1, (k a).2)

def mToken (f : Fetcher) : M String := ([Req.token], f.tokenResp)

def mAlbumPage (f : Fetcher) (url : String) : M AlbumPaging :=
  ([Req.albumPage url], f.albumPageResp url)

def mAlbumDetail (f : Fetcher) (url : String) : M FullAlbum :=
  ([Req.albumDetail url], f.albumDetailResp url)

def mTrackPage (f : Fetcher) (url : String) : M TrackPaging :=
  ([Req.trackPage url], f.trackPageResp url)

/-- URL resolution of `spotifyGet` (fetch-releases.js line 312). -/
def resolveUrl (path : String) : String :=
  if jsStartsWith path "https://" then path
  else "https://api.spotify.com/v1" ++ path

def ARTIST_ID : String := "2T04y62jXdLsznulD3sT4D"

/-- The initial path of the release-list fetch (fetch-releases.js line 407). -/
def initialAlbumsUrl : String :=
  "/v1/artists/" ++ ARTIST_ID ++ "/albums?include_groups=album,single&market=US&limit=50"

/-- `fetchAllPages` (fetch-releases.js line 321) for the release list. -/
def fetchAllAlbumPages (f : Fetcher) : Nat → Option String → M (List AlbumObject)
  | _, none => mPure []
  | 0, some _ => ([], Except.error "pagination fuel exhausted")
  | fuel + 1, some url =>
    mBind (mAlbumPage f (resolveUrl url)) (fun page =>
    mBind (fetchAllAlbumPages f fuel page.next) (fun rest =>
    mPure (page.items ++ rest)))

/-- The inner `while (nextTracksUrl)` loop (fetch-releases.js lines 423-428). -/
def fetchRemainingTrackPages (f : Fetcher) : Nat → Option String → M (List SpotifyTrackItem)
  | _, none => mPure []
  | 0, some _ => ([], Except.error "pagination fuel exhausted")
  | fuel + 1, some url =>
    mBind (mTrackPage f (resolveUrl url)) (fun page =>
    mBind (fetchRemainingTrackPages f fuel page.next) (fun rest =>
    mPure (page.items ++ rest)))

/-- JS `parseInt` on a digit-led string: the leading digit run, or NaN
(modelled as `none`) when the string does not start with a digit. -/
def parseIntPrefix (s : String) : Option Int :=
  match s.data.takeWhile Char.isDigit with
  | [] => none
  | ds => some (Int.ofNat (ds.foldl (fun acc c => acc * 10 + (c.toNat - 48)) 0))

/-- The track record built at fetch-releases.js lines 433-447. -/
def buildTrack (existing : ReleasesData) (albumId : String) (track : SpotifyTrackItem) :
    Track :=
  let trackManual := preserveTrackManualUrls existing albumId track.id
  { trackNumber := track.track_number
    title := track.name
    spotifyId := track.id
    spotifyUrl := track.spotifyUrlField.getD ""
    appleMusicUrl := trackManual.appleMusicUrl
    amazonMusicUrl := trackManual.amazonMusicUrl
    youtubeUrl := trackManual.youtubeUrl
    durationMs := track.duration_ms.getD 0
    durationFormatted := formatDuration (track.duration_ms.getD 0)
    isExplicit := track.explicitFlag.getD false }

/-- The release record built at fetch-releases.js lines 449-465. -/
def buildRelease (existing : ReleasesData) (album : AlbumObject) (full : FullAlbum)
    (trackItems : List SpotifyTrackItem) : Release :=
  let manual := preserveManualUrls existing album.id
  let releaseType := if album.album_type == "album" then "album" else "single"
  { id := releaseType ++ "-" ++ album.id
    rtype := releaseType
    title := album.name
    releaseDate := album.release_date
    year := parseIntPrefix (jsTake album.release_date 4)
    spotifyId := album.id
    spotifyUrl := album.spotifyUrlField.getD ""
    appleMusicUrl := manual.appleMusicUrl
    amazonMusicUrl := manual.amazonMusicUrl
    youtubePlaylistUrl := manual.youtubePlaylistUrl
    youtubeUrl := manual.youtubeUrl
    artworkUrl := bestArtworkUrl full.images
    artworkUrlSmall := smallArtworkUrl full.images
    totalTracks := full.total_tracks.getD trackItems.length
    tracks := trackItems.map (buildTrack existing album.id) }

/-- Per-album body of the main loop (fetch-releases.js lines 415-468). -/
def processAlbum (f : Fetcher) (fuel : Nat) (existing : ReleasesData)
    (album : AlbumObject) : M Release :=
  mBind (mAlbumDetail f (resolveUrl ("/v1/albums/" ++ album.id ++ "?market=US"))) (fun full =>
  mBind (fetchRemainingTrackPages f fuel full.tracksNext) (fun rest =>
  mPure (buildRelease existing album full (full.tracksItems ++ rest))))

def processAlbums (f : Fetcher) (fuel : Nat) (existing : ReleasesData) :
    List AlbumObject → M (List Release)
  | [] => mPure []
  | a :: rest =>
    mBind (processAlbum f fuel existing a) (fun r =>
    mBind (processAlbums f fuel existing rest) (fun rs =>
    mPure (r :: rs)))

/-- The fetch phase of `main`: token exchange, paginated release list,
then per-release detail and track pages. -/
def mainBuild (f : Fetcher) (fuel : Nat) (existing : ReleasesData) : M (List Release) :=
  mBind (mToken f) (fun _ =>
  mBind (fetchAllAlbumPages f fuel (some initialAlbumsUrl)) (fun albums =>
  processAlbums f fuel existing albums))

/-- The whole resync run over an explicit prior file state.  Returns the
final file contents (unchanged on abort), the request trace, and the run
outcome.  `dateVal` stands for the environment's `Date` parsing used only
as a sort key; `stamp` for `new Date().toISOString().slice(0, 10)`. -/
def mainResync (f : Fetcher) (fuel : Nat) (dateVal : String → Int) (stamp : String)
    (prior : ReleasesData) : ReleasesData × List Req × Except String ReleasesData :=
  match mainBuild f fuel prior with
  | (trace, Except.error e) => (prior, trace, Except.error e)
  | (trace, Except.ok releases) =>
    let sorted := sortLe (fun a b => dateVal b.releaseDate ≤ dateVal a.releaseDate) releases
    let output : ReleasesData :=
      { lastUpdated := stamp
        artistName := "Jade Three"
        spotifyArtistId := ARTIST_ID
        releases := sorted }
    (output, trace, Except.ok output)

/-! ## Abort propagation: a failed request anywhere in the trace forces an
error outcome -/

/-- A computation is well-aborted for `f` when any failing request in its
trace implies an error outcome. -/
def MGood (f : Fetcher) (m : M α) : Prop :=
  (∃ req ∈ m.1, reqFails f req = true) → ∃ e, m.2 = Except.error e

theorem mGood_pure (f : Fetcher) (a : α) : MGood f (mPure a) := by
  rintro ⟨req, hmem, _⟩
  exact absurd hmem (List.not_mem_nil req)

theorem mGood_abort (f : Fetcher) (e : String) (t : List Req) :
    MGood f (α := α) (t, Except.error e) := fun _ => ⟨e, rfl⟩

theorem mGood_token (f : Fetcher) : MGood f (mToken f) := by
  rintro ⟨req, hmem, hfail⟩
  rcases List.mem_singleton.mp hmem with rfl
  simp only [reqFails] at hfail
  unfold mToken
  cases h : f.tokenResp with
  | error e => exact ⟨e, rfl⟩
  | ok v => rw [h] at hfail; simp [isErr] at hfail

theorem mGood_albumPage (f : Fetcher) (url : String) : MGood f (mAlbumPage f url) := by
  rintro ⟨req, hmem, hfail⟩
  rcases List.mem_singleton.mp hmem with rfl
  simp only [reqFails] at hfail
  unfold mAlbumPage
  cases h : f.albumPageResp url with
  | error e => exact ⟨e, rfl⟩
  | ok v => rw [h] at hfail; simp [isErr] at hfail

theorem mGood_albumDetail (f : Fetcher) (url : String) : MGood f (mAlbumDetail f url) := by
  rintro ⟨req, hmem, hfail⟩
  rcases List.mem_singleton.mp hmem with rfl
  simp only [reqFails] at hfail
  unfold mAlbumDetail
  cases h : f.albumDetailResp url with
  | error e => exact ⟨e, rfl⟩
  | ok v => rw [h] at hfail; simp [isErr] at hfail

theorem mGood_trackPage (f : Fetcher) (url : String) : MGood f (mTrackPage f url) := by
  rintro ⟨req, hmem, hfail⟩
  rcases List.mem_singleton.mp hmem with rfl
  simp only [reqFails] at hfail
  unfold mTrackPage
  cases h : f.trackPageResp url with
  | error e => exact ⟨e, rfl⟩
  | ok v => rw [h] at hfail; simp [isErr] at hfail

theorem mGood_bind (f : Fetcher) (m : M α) (k : α → M β)
    (hm : MGood f m) (hk : ∀ a, MGood f (k a)) : MGood f (mBind m k) := by
  obtain ⟨t, r⟩ := m
  cases r with
  | error e => exact fun _ => ⟨e, rfl⟩
  | ok a =>
    rintro ⟨req, hmem, hfail⟩
    simp only [mBind] at hmem ⊢
    rcases List.mem_append.mp hmem with hin | hin
    · rcases hm ⟨req, hin, hfail⟩ with ⟨e, he⟩
      exact absurd he (by simp)
    · exact hk a ⟨req, hin, hfail⟩

theorem mGood_fetchAllAlbumPages (f : Fetcher) (fuel : Nat) (url : Option String) :
    MGood f (fetchAllAlbumPages f fuel url) := by
  induction fuel generalizing url with
  | zero =>
    cases url with
    | none => exact mGood_pure f []
    | some u => exact mGood_abort f _ _
  | succ n ih =>
    cases url with
    | none => exact mGood_pure f []
    | some u =>
      exact mGood_bind f _ _ (mGood_albumPage f _) (fun page =>
        mGood_bind f _ _ (ih page.next) (fun rest => mGood_pure f _))

theorem mGood_fetchRemainingTrackPages (f : Fetcher) (fuel : Nat) (url : Option String) :
    MGood f (fetchRemainingTrackPages f fuel url) := by
  induction fuel generalizing url with
  | zero =>
    cases url with
    | none => exact mGood_pure f []
    | some u => exact mGood_abort f _ _
  | succ n ih =>
    cases url with
    | none => exact mGood_pure f []
    | some u =>
      exact mGood_bind f _ _ (mGood_trackPage f _) (fun page =>
        mGood_bind f _ _ (ih page.next) (fun rest => mGood_pure f _))

theorem mGood_processAlbum (f : Fetcher) (fuel : Nat) (existing : ReleasesData)
    (album : AlbumObject) : MGood f (processAlbum f fuel existing album) :=
  mGood_bind f _ _ (mGood_albumDetail f _) (fun full =>
    mGood_bind f _ _ (mGood_fetchRemainingTrackPages f fuel full.tracksNext) (fun _ =>
      mGood_pure f _))

theorem mGood_processAlbums (f : Fetcher) (fuel : Nat) (existing : ReleasesData)
    (albums : List AlbumObject) : MGood f (processAlbums f fuel existing albums) := by
  induction albums with
  | nil => exact mGood_pure f []
  | cons a rest ih =>
    exact mGood_bind f _ _ (mGood_processAlbum f fuel existing a) (fun r =>
      mGood_bind f _ _ ih (fun rs => mGood_pure f _))

theorem mGood_mainBuild (f : Fetcher) (fuel : Nat) (existing : ReleasesData) :
    MGood f (mainBuild f fuel existing) :=
  mGood_bind f _ _ (mGood_token f) (fun _ =>
    mGood_bind f _ _ (mGood_fetchAllAlbumPages f fuel (some initialAlbumsUrl)) (fun albums =>
      mGood_processAlbums f fuel existing albums))

/-! # Claim theorems -/

/-- C1 counterexample: the stored `durationFormatted` of a track built by
the full resync does not in general equal `floor(durationMs/1000)`
rendered as `M:SS`: at `durationMs = 500` the code's `Math.round` yields
`"0:01"` while the floor formula yields `"0:00"`. -/
theorem C1_counterexample :
    (buildTrack ⟨"", "", "", []⟩ "a" ⟨1, "t", "tid", none, some 500, none⟩).durationMs = 500
    ∧ (buildTrack ⟨"", "", "", []⟩ "a" ⟨1, "t", "tid", none, some 500, none⟩).durationFormatted
        = "0:01"
    ∧ formatDurationSpec 500 = "0:00"
    ∧ (buildTrack ⟨"", "", "", []⟩ "a" ⟨1, "t", "tid", none, some 500, none⟩).durationFormatted
        ≠ formatDurationSpec 500 := by
  refine ⟨rfl, rfl, rfl, ?_⟩
  decide

/-- C1 (amended): for every track record built by the full resync, the
stored `durationFormatted` equals `round(durationMs/1000)` — that is,
`floor((durationMs+500)/1000)` — total seconds rendered as `M:SS` with the
seconds zero-padded to two digits, and it is recomputed from `durationMs`
rather than stored independently; `durationMs = 125000` yields `"2:05"`,
`59000` yields `"0:59"`, and `0` yields `"0:00"`. -/
theorem C1_duration_format_round :
    ∀ (existing : ReleasesData) (albumId : String) (track : SpotifyTrackItem),
      (buildTrack existing albumId track).durationFormatted
        = formatDuration (buildTrack existing albumId track).durationMs
      ∧ (∀ ms : Nat, formatDuration ms
          = toString ((ms + 500) / 1000 / 60) ++ ":" ++ pad2 (toString ((ms + 500) / 1000 % 60)))
      ∧ formatDuration 125000 = "2:05"
      ∧ formatDuration 59000 = "0:59"
      ∧ formatDuration 0 = "0:00" := by
  intro existing albumId track
  exact ⟨rfl, fun ms => rfl, by decide, by decide, by decide⟩

/-- C8: `normalize` outputs only lowercase ASCII letters and digits and is
idempotent. -/
theorem C8_normalize_alnum_idem :
    ∀ s : String,
      (∀ c ∈ (normalize s).data, ('a' ≤ c ∧ c ≤ 'z') ∨ ('0' ≤ c ∧ c ≤ '9'))
      ∧ normalize (normalize s) = normalize s := by
  intro s
  refine ⟨fun c hc => ?_, normalize_idem s⟩
  have h := mem_normalize_isLowerDigit hc
  simpa [isLowerDigit, Bool.or_eq_true, Bool.and_eq_true, decide_eq_true_eq] using h

/-- C8 witness: the character facts at the concrete input `"Ab-3!"`. -/
theorem C8_witness :
    (('a' ≤ 'a' ∧ 'a' ≤ 'z') ∨ ('0' ≤ 'a' ∧ 'a' ≤ '9'))
    ∧ normalize (normalize "Ab-3!") = normalize "Ab-3!" :=
  ⟨(C8_normalize_alnum_idem "Ab-3!").1 'a' (by decide),
   (C8_normalize_alnum_idem "Ab-3!").2⟩

/-- C3: the manual-field preservers key on exact identifiers: when no
release carries the given catalog identifier every nullable field comes
back null; when the (first) release with that identifier exists, exactly
its stored values come back; the same at track level within the found
release; values never come from a release or track with a different
identifier. -/
theorem C3_preserve_exact_identifier :
    ∀ (existing : ReleasesData) (sid tid : String),
      ((∀ r ∈ existing.releases, r.spotifyId ≠ sid) →
        preserveManualUrls existing sid = ⟨none, none, none, none⟩
        ∧ preserveTrackManualUrls existing sid tid = ⟨none, none, none⟩)
      ∧ (∀ r, existing.releases.find? (fun r => r.spotifyId == sid) = some r →
          r ∈ existing.releases ∧ r.spotifyId = sid
          ∧ preserveManualUrls existing sid
              = ⟨r.appleMusicUrl, r.amazonMusicUrl, r.youtubePlaylistUrl, r.youtubeUrl⟩
          ∧ ((∀ t ∈ r.tracks, t.spotifyId ≠ tid) →
              preserveTrackManualUrls existing sid tid = ⟨none, none, none⟩)
          ∧ (∀ t, r.tracks.find? (fun t => t.spotifyId == tid) = some t →
              t ∈ r.tracks ∧ t.spotifyId = tid
              ∧ preserveTrackManualUrls existing sid tid
                  = ⟨t.appleMusicUrl, t.amazonMusicUrl, t.youtubeUrl⟩)) := by
  intro existing sid tid
  constructor
  · intro habsent
    have hnone : existing.releases.find? (fun r => r.spotifyId == sid) = none := by
      rw [List.find?_eq_none]
      intro r hr
      simpa using habsent r hr
    constructor
    · unfold preserveManualUrls
      rw [hnone]
    · unfold preserveTrackManualUrls
      rw [hnone]
  · intro r hfind
    have hmem : r ∈ existing.releases := List.mem_of_find?_eq_some hfind
    have hid : r.spotifyId = sid := by
      have := List.find?_some hfind
      simpa using this
    refine ⟨hmem, hid, ?_, ?_, ?_⟩
    · unfold preserveManualUrls
      rw [hfind]
    · intro habsent
      have hnone : r.tracks.find? (fun t => t.spotifyId == tid) = none := by
        rw [List.find?_eq_none]
        intro t ht
        simpa using habsent t ht
      unfold preserveTrackManualUrls
      simp only [hfind, hnone]
    · intro t htfind
      have htmem : t ∈ r.tracks := List.mem_of_find?_eq_some htfind
      have htid : t.spotifyId = tid := by
        have := List.find?_some htfind
        simpa using this
      refine ⟨htmem, htid, ?_⟩
      unfold preserveTrackManualUrls
      simp only [hfind, htfind]

/-- A release of the prior dataset holding manually curated URLs. -/
def relExisting : Release :=
  { id := "single-abc", rtype := "single", title := "Song", releaseDate := "2024-01-01",
    year := some 2024, spotifyId := "abc", spotifyUrl := "",
    appleMusicUrl := some "https://existing", amazonMusicUrl := none,
    youtubePlaylistUrl := none, youtubeUrl := none, artworkUrl := "",
    artworkUrlSmall := "", totalTracks := 1,
    tracks := [{ trackNumber := 1, title := "Song", spotifyId := "tr1", spotifyUrl := "",
                 appleMusicUrl := some "https://track", amazonMusicUrl := none,
                 youtubeUrl := none, durationMs := 125000,
                 durationFormatted := "2:05", isExplicit := false }] }

/-- A decoy release with a similar title but a different identifier. -/
def relDecoy : Release :=
  { id := "single-xyz", rtype := "single", title := "Song (Remix)", releaseDate := "2024-02-01",
    year := some 2024, spotifyId := "xyz", spotifyUrl := "",
    appleMusicUrl := some "https://other", amazonMusicUrl := some "https://amz-other",
    youtubePlaylistUrl := none, youtubeUrl := none, artworkUrl := "",
    artworkUrlSmall := "", totalTracks := 0, tracks := [] }

/-- A prior dataset with the curated release and the decoy. -/
def priorEx : ReleasesData :=
  { lastUpdated := "2024-03-01", artistName := "Jade Three",
    spotifyArtistId := ARTIST_ID, releases := [relExisting, relDecoy] }

/-- C3 witness: on the concrete dataset, an absent identifier yields all
null and the identifier `"abc"` yields exactly the stored values. -/
theorem C3_witness :
    (preserveManualUrls priorEx "zzz" = ⟨none, none, none, none⟩
      ∧ preserveTrackManualUrls priorEx "zzz" "tr1" = ⟨none, none, none⟩)
    ∧ (relExisting ∈ priorEx.releases ∧ relExisting.spotifyId = "abc"
      ∧ preserveManualUrls priorEx "abc"
          = ⟨relExisting.appleMusicUrl, relExisting.amazonMusicUrl,
             relExisting.youtubePlaylistUrl, relExisting.youtubeUrl⟩) := by
  refine ⟨(C3_preserve_exact_identifier priorEx "zzz" "tr1").1 ?_, ?_⟩
  · intro r hr
    simp only [priorEx, List.mem_cons, List.not_mem_nil, or_false] at hr
    rcases hr with h | h
    · rw [h]; decide
    · rw [h]; decide
  · have h := (C3_preserve_exact_identifier priorEx "abc" "tr1").2 relExisting (by decide)
    exact ⟨h.1, h.2.1, h.2.2.1⟩

/-- C5: the Apple Music match selector evaluates its tiers in order with
the first hit winning: the first candidate whose normalized title —
unchanged or cleaned of trailing `single`/`ep`/separator suffixes — equals
the normalized target wins tier one and its URL is returned; only when no
candidate matches tier one is the first candidate whose normalized title
starts with the normalized target returned; when neither tier matches any
candidate — in particular for the empty list — the result is `none`. -/
theorem C5_selectBest_tiers :
    ∀ (results : List ItunesResult) (title : String),
      (∀ r, results.find? (tier1Match (normalize title)) = some r →
        r ∈ results ∧ tier1Match (normalize title) r = true
        ∧ findBestMatch results title = r.collectionViewUrl)
      ∧ (results.find? (tier1Match (normalize title)) = none →
        ∀ r, results.find? (tier2Match (normalize title)) = some r →
          r ∈ results ∧ tier2Match (normalize title) r = true
          ∧ findBestMatch results title = r.collectionViewUrl)
      ∧ ((∀ r ∈ results, tier1Match (normalize title) r = false
            ∧ tier2Match (normalize title) r = false) →
        findBestMatch results title = none)
      ∧ findBestMatch [] title = none := by
  intro results title
  refine ⟨?_, ?_, ?_, rfl⟩
  · intro r hfind
    refine ⟨List.mem_of_find?_eq_some hfind, List.find?_some hfind, ?_⟩
    unfold findBestMatch
    simp only [hfind]
  · intro hnone r hfind
    refine ⟨List.mem_of_find?_eq_some hfind, List.find?_some hfind, ?_⟩
    unfold findBestMatch
    simp only [hnone, hfind]
  · intro hfalse
    have h1 : results.find? (tier1Match (normalize title)) = none := by
      rw [List.find?_eq_none]
      intro r hr
      simp [(hfalse r hr).1]
    have h2 : results.find? (tier2Match (normalize title)) = none := by
      rw [List.find?_eq_none]
      intro r hr
      simp [(hfalse r hr).2]
    unfold findBestMatch
    simp only [h1, h2]

/-- C5 witness: tier one picks the suffix-stripped exact match ahead of an
unrelated candidate, tier two picks the prefix match `"Obey Early (Remix)"`
for target `"Obey Early"`, and the empty candidate list yields `none`. -/
theorem C5_witness :
    (findBestMatch [⟨some "Year Until the Fall - EP", some "https://a"⟩,
        ⟨some "Unrelated", some "https://b"⟩] "Year Until the Fall" = some "https://a")
    ∧ (findBestMatch [⟨some "Obey Early (Remix)", some "https://c"⟩] "Obey Early"
        = some "https://c")
    ∧ findBestMatch [] "anything" = none := by
  refine ⟨?_, ?_, (C5_selectBest_tiers [] "anything").2.2.2⟩
  · exact (((C5_selectBest_tiers _ "Year Until the Fall").1
      ⟨some "Year Until the Fall - EP", some "https://a"⟩ (by decide)).2.2)
  · exact (((C5_selectBest_tiers _ "Obey Early").2.1 (by decide)
      ⟨some "Obey Early (Remix)", some "https://c"⟩ (by decide)).2.2)

theorem startsWithL_of_append {l p q : List Char}
    (h : startsWithL l (p ++ q) = true) : startsWithL l p = true := by
  induction p generalizing l with
  | nil => cases l <;> rfl
  | cons b bs ih =>
    cases l with
    | nil => simp [startsWithL] at h
    | cons a as =>
      simp only [List.cons_append, startsWithL, Bool.and_eq_true] at h ⊢
      exact ⟨h.1, ih h.2⟩

theorem containsL_of_append {l p q : List Char}
    (h : containsL l (p ++ q) = true) : containsL l p = true := by
  induction l with
  | nil =>
    simp only [containsL, List.isEmpty_iff, List.append_eq_nil] at h ⊢
    exact h.1
  | cons c rest ih =>
    simp only [containsL, Bool.or_eq_true] at h ⊢
    rcases h with h | h
    · exact Or.inl (startsWithL_of_append h)
    · exact Or.inr (ih h)

/-- The channel-affinity test of the code is exactly "channel title
contains `jade` case-insensitively": the `'jade three'` disjunct at
fetch-youtube.js line 86 is subsumed by the `'jade'` disjunct. -/
theorem channelMatches_iff (sn : Snippet) :
    channelMatches sn = true ↔
      ∃ ct, sn.channelTitle = some ct ∧ jsIncludes (jsToLower ct) "jade" = true := by
  unfold channelMatches
  cases hc : sn.channelTitle with
  | none => simp
  | some ct =>
    simp only [Bool.or_eq_true]
    constructor
    · rintro (h | h)
      · exact ⟨ct, rfl, h⟩
      · refine ⟨ct, rfl, ?_⟩
        have hsplit : ("jade three").data = ("jade").data ++ (" three").data := by decide
        unfold jsIncludes at h ⊢
        rw [hsplit] at h
        exact containsL_of_append h
    · rintro ⟨ct', hct, h⟩
      cases hct
      exact Or.inl h

/-- C6 counterexample: the claim's notion of channel affinity —
owning-channel name contains the artist's name "Jade Three" — is violated
by the code: the channel `"Jade Smith"` does not contain `"jade three"`,
its candidate's title fails every title heuristic for target `"Song"`, so
the claim requires `none`, yet `findBestVideo` returns its URL. -/
theorem C6_counterexample :
    jsIncludes (jsToLower "Jade Smith") (jsToLower "Jade Three") = false
    ∧ videoTitleHeur (normalize "Song") ⟨⟨some "Jade Smith", some "zzz"⟩, some "V", none⟩ = false
    ∧ findBestVideo [⟨⟨some "Jade Smith", some "zzz"⟩, some "V", none⟩] "Song"
        = some "https://www.youtube.com/watch?v=V" := by
  refine ⟨by decide, by decide, by decide⟩

/-- C6 (amended): channel affinity in the code means the owning-channel
name contains `"jade"` (case-insensitive substring; the `'jade three'`
disjunct is subsumed).  With that affinity notion, affine candidates are
preferred before the title heuristics: a candidate is returned by the
first pass only if affine and title-matching, when no first-pass candidate
exists the first affine candidate's URL is returned, and a list with no
affine candidate yields `none`; the same holds for the playlist matcher. -/
theorem C6_channel_affinity :
    ∀ (items : List SearchItem) (title : String),
      (∀ sn : Snippet, channelMatches sn = true ↔
        ∃ ct, sn.channelTitle = some ct ∧ jsIncludes (jsToLower ct) "jade" = true)
      ∧ (∀ it, items.find?
            (fun it => channelMatches it.snippet && videoTitleHeur (normalize title) it)
            = some it →
          findBestVideo items title = some (watchUrl it) ∧ channelMatches it.snippet = true)
      ∧ (items.find?
            (fun it => channelMatches it.snippet && videoTitleHeur (normalize title) it)
            = none →
        ∀ it, items.find? (fun it => channelMatches it.snippet) = some it →
          findBestVideo items title = some (watchUrl it))
      ∧ ((∀ it ∈ items, channelMatches it.snippet = false) →
          findBestVideo items title = none)
      ∧ (∀ it, items.find?
            (fun it => channelMatches it.snippet && videoTitleHeur (normalize title) it)
            = some it →
          findBestPlaylist items title = some (playlistUrl it))
      ∧ (items.find?
            (fun it => channelMatches it.snippet && videoTitleHeur (normalize title) it)
            = none →
        ∀ it, items.find? (fun it => channelMatches it.snippet) = some it →
          findBestPlaylist items title = some (playlistUrl it))
      ∧ ((∀ it ∈ items, channelMatches it.snippet = false) →
          findBestPlaylist items title = none) := by
  intro items title
  have hnone : (∀ it ∈ items, channelMatches it.snippet = false) →
      items.find? (fun it => channelMatches it.snippet && videoTitleHeur (normalize title) it)
        = none
      ∧ items.find? (fun it => channelMatches it.snippet) = none := by
    intro hfalse
    constructor
    · rw [List.find?_eq_none]
      intro it hit
      simp [hfalse it hit]
    · rw [List.find?_eq_none]
      intro it hit
      simp [hfalse it hit]
  refine ⟨channelMatches_iff, ?_, ?_, ?_, ?_, ?_, ?_⟩
  · intro it hfind
    have hp := List.find?_some hfind
    simp only [Bool.and_eq_true] at hp
    refine ⟨?_, hp.1⟩
    unfold findBestVideo
    simp only [hfind]
  · intro h1 it hfind
    unfold findBestVideo
    simp only [h1, hfind]
  · intro hfalse
    obtain ⟨h1, h2⟩ := hnone hfalse
    unfold findBestVideo
    simp only [h1, h2]
  · intro it hfind
    unfold findBestPlaylist
    simp only [hfind]
  · intro h1 it hfind
    unfold findBestPlaylist
    simp only [h1, hfind]
  · intro hfalse
    obtain ⟨h1, h2⟩ := hnone hfalse
    unfold findBestPlaylist
    simp only [h1, h2]

/-- C6 witness: at concrete candidate lists, the first pass wins for an
affine title-matching candidate, an affine candidate with a non-matching
title is taken only as fallback, and a list with no affine candidate
yields `none`. -/
def ytItemsA : List SearchItem :=
  [⟨⟨some "Jade Three", some "Song (Official Video)"⟩, some "V1", none⟩]

def ytItemsB : List SearchItem :=
  [⟨⟨some "Jade Three", some "zzz"⟩, some "V2", none⟩]

def ytItemsC : List SearchItem :=
  [⟨⟨some "Other Channel", some "Song"⟩, some "V3", none⟩]

theorem C6_witness :
    (findBestVideo ytItemsA "Song" = some "https://www.youtube.com/watch?v=V1")
    ∧ (findBestVideo ytItemsB "Song" = some "https://www.youtube.com/watch?v=V2")
    ∧ findBestVideo ytItemsC "Song" = none := by
  refine ⟨?_, ?_, ?_⟩
  · exact ((C6_channel_affinity ytItemsA "Song").2.1
      ⟨⟨some "Jade Three", some "Song (Official Video)"⟩, some "V1", none⟩ (by decide)).1
  · exact (C6_channel_affinity ytItemsB "Song").2.2.1 (by decide)
      ⟨⟨some "Jade Three", some "zzz"⟩, some "V2", none⟩ (by decide)
  · refine (C6_channel_affinity ytItemsC "Song").2.2.2.1 ?_
    intro it hit
    simp only [ytItemsC, List.mem_singleton] at hit
    rw [hit]
    decide

/-- A single release whose video search throws is left unchanged and
reported: the need flags select the video step, the thrown error short
circuits it, and no playlist step runs for a single. -/
theorem processYtRelease_video_error
    (oracle : String → String → Except String (List SearchItem))
    (answers : String → String → String) (r : Release) (e : String)
    (hv : jsTruthy r.youtubeUrl = false) (hs : r.rtype = "single")
    (herr : oracle (ytQuery r) "video" = Except.error e) :
    processYtRelease oracle answers r = (r, [r.title ++ " (video)"]) := by
  unfold processYtRelease
  simp [hv, hs, herr]

/-- C7: in both targeted backfills — the media-store driver and the
video-platform driver — a thrown per-release search error does not abort
the run: that release is left unchanged and added to the not-found
report, every other release is processed normally (the output is the
pointwise processing of the input, same length, in order), the full
dataset is written exactly once with `lastUpdated` stamped, and the
unresolved titles are printed after the write. -/
theorem C7_backfill_error_isolation :
    ∀ (oracle : Release → Except String (List ItunesResult))
      (ytOracle : String → String → Except String (List SearchItem))
      (answers : String → String → String)
      (data : ReleasesData) (stamp : String) (i : Nat),
      (appleBackfill oracle data stamp).1.releases.length = data.releases.length
      ∧ (appleBackfill oracle data stamp).1.lastUpdated = stamp
      ∧ (∀ j : Nat, (appleBackfill oracle data stamp).1.releases[j]?
          = (data.releases[j]?).map (fun r => (processAppleRelease oracle r).1))
      ∧ ((appleBackfillEvents oracle data stamp).filter FileEvent.isWrite
          = [FileEvent.write (appleBackfill oracle data stamp).1])
      ∧ (∀ r e, data.releases[i]? = some r → jsTruthy r.appleMusicUrl = false →
          oracle r = Except.error e →
          (appleBackfill oracle data stamp).1.releases[i]? = some r
          ∧ r.title ∈ (appleBackfill oracle data stamp).2
          ∧ FileEvent.print r.title ∈ appleBackfillEvents oracle data stamp)
      ∧ (ytBackfill ytOracle answers data stamp).1.releases.length = data.releases.length
      ∧ (ytBackfill ytOracle answers data stamp).1.lastUpdated = stamp
      ∧ (∀ j : Nat, (ytBackfill ytOracle answers data stamp).1.releases[j]?
          = (data.releases[j]?).map (fun r => (processYtRelease ytOracle answers r).1))
      ∧ ((ytBackfillEvents ytOracle answers data stamp).filter FileEvent.isWrite
          = [FileEvent.write (ytBackfill ytOracle answers data stamp).1])
      ∧ (∀ r e, data.releases[i]? = some r → jsTruthy r.youtubeUrl = false →
          r.rtype = "single" → ytOracle (ytQuery r) "video" = Except.error e →
          (ytBackfill ytOracle answers data stamp).1.releases[i]? = some r
          ∧ (r.title ++ " (video)") ∈ (ytBackfill ytOracle answers data stamp).2
          ∧ FileEvent.print (r.title ++ " (video)")
              ∈ ytBackfillEvents ytOracle answers data stamp) := by
  intro oracle ytOracle answers data stamp i
  have hidx : ∀ j : Nat, (appleBackfill oracle data stamp).1.releases[j]?
      = (data.releases[j]?).map (fun r => (processAppleRelease oracle r).1) := by
    intro j
    simp only [appleBackfill, List.map_map, List.getElem?_map]
    cases data.releases[j]? <;> rfl
  have hidxY : ∀ j : Nat, (ytBackfill ytOracle answers data stamp).1.releases[j]?
      = (data.releases[j]?).map (fun r => (processYtRelease ytOracle answers r).1) := by
    intro j
    simp only [ytBackfill, List.map_map, List.getElem?_map]
    cases data.releases[j]? <;> rfl
  refine ⟨by simp [appleBackfill], rfl, hidx, ?_, ?_, by simp [ytBackfill], rfl, hidxY, ?_, ?_⟩
  · simp [appleBackfillEvents, List.filter_cons, FileEvent.isWrite, List.filter_map,
      Function.comp]
  · intro r e hi htruthy herr
    have hproc : processAppleRelease oracle r = (r, [r.title]) := by
      unfold processAppleRelease
      rw [htruthy, herr]
      simp
    have hmemr : r ∈ data.releases := List.getElem?_mem hi
    have hmemp : (processAppleRelease oracle r) ∈ data.releases.map (processAppleRelease oracle) :=
      List.mem_map_of_mem (processAppleRelease oracle) hmemr
    have hmems : [r.title] ∈ (data.releases.map (processAppleRelease oracle)).map Prod.snd := by
      have := List.mem_map_of_mem Prod.snd hmemp
      rwa [hproc] at this
    have htitle : r.title ∈ (appleBackfill oracle data stamp).2 := by
      simp only [appleBackfill]
      exact List.mem_flatten.mpr ⟨[r.title], hmems, List.mem_singleton.mpr rfl⟩
    refine ⟨?_, htitle, ?_⟩
    · rw [hidx i, hi]
      simp [hproc]
    · simp only [appleBackfillEvents]
      exact List.mem_cons_of_mem _ (List.mem_map_of_mem FileEvent.print htitle)
  · simp [ytBackfillEvents, List.filter_cons, FileEvent.isWrite, List.filter_map,
      Function.comp]
  · intro r e hi htruthy hsingle herr
    have hproc : processYtRelease ytOracle answers r = (r, [r.title ++ " (video)"]) :=
      processYtRelease_video_error ytOracle answers r e htruthy hsingle herr
    have hmemr : r ∈ data.releases := List.getElem?_mem hi
    have hmemp : (processYtRelease ytOracle answers r)
        ∈ data.releases.map (processYtRelease ytOracle answers) :=
      List.mem_map_of_mem (processYtRelease ytOracle answers) hmemr
    have hmems : [r.title ++ " (video)"]
        ∈ (data.releases.map (processYtRelease ytOracle answers)).map Prod.snd := by
      have := List.mem_map_of_mem Prod.snd hmemp
      rwa [hproc] at this
    have htitle : (r.title ++ " (video)") ∈ (ytBackfill ytOracle answers data stamp).2 := by
      simp only [ytBackfill]
      exact List.mem_flatten.mpr ⟨[r.title ++ " (video)"], hmems, List.mem_singleton.mpr rfl⟩
    refine ⟨?_, htitle, ?_⟩
    · rw [hidxY i, hi]
      simp [hproc]
    · simp only [ytBackfillEvents]
      exact List.mem_cons_of_mem _ (List.mem_map_of_mem FileEvent.print htitle)

/-- A backfill oracle that throws on the release with identifier `abc`
and returns a matching candidate otherwise. -/
def backfillOracleEx : Release → Except String (List ItunesResult) :=
  fun r =>
    if r.spotifyId == "abc" then Except.error "iTunes API error: 500"
    else Except.ok [⟨some "Song (Remix) - Single", some "https://u"⟩]

def relNeedsA : Release :=
  { id := "single-abc", rtype := "single", title := "Song", releaseDate := "2024-01-01",
    year := some 2024, spotifyId := "abc", spotifyUrl := "", appleMusicUrl := none,
    amazonMusicUrl := none, youtubePlaylistUrl := none, youtubeUrl := none,
    artworkUrl := "", artworkUrlSmall := "", totalTracks := 0, tracks := [] }

def relNeedsB : Release :=
  { id := "single-def", rtype := "single", title := "Song (Remix)", releaseDate := "2024-02-01",
    year := some 2024, spotifyId := "def", spotifyUrl := "", appleMusicUrl := none,
    amazonMusicUrl := none, youtubePlaylistUrl := none, youtubeUrl := none,
    artworkUrl := "", artworkUrlSmall := "", totalTracks := 0, tracks := [] }

def backfillDataEx : ReleasesData :=
  { lastUpdated := "2024-03-01", artistName := "Jade Three",
    spotifyArtistId := ARTIST_ID, releases := [relNeedsA, relNeedsB] }

/-- A video-platform search oracle that throws on the first release's
video search and returns a matching candidate otherwise. -/
def ytOracleEx : String → String → Except String (List SearchItem) :=
  fun query kind =>
    if query == ytQuery relNeedsA && kind == "video" then
      Except.error "YouTube API error 500"
    else Except.ok [⟨⟨some "Jade Three", some "Song (Remix) Official"⟩, some "V9", none⟩]

/-- An operator who accepts every proposed candidate. -/
def ytAnswersEx : String → String → String := fun _ _ => "y"

/-- C7 witness: in both drivers, with the first release's search throwing,
the run still produces a stamped document in which that release is
unchanged and listed as unresolved. -/
theorem C7_witness :
    ((appleBackfill backfillOracleEx backfillDataEx "2025-01-01").1.releases[0]?
        = some relNeedsA
      ∧ relNeedsA.title ∈ (appleBackfill backfillOracleEx backfillDataEx "2025-01-01").2
      ∧ FileEvent.print relNeedsA.title
          ∈ appleBackfillEvents backfillOracleEx backfillDataEx "2025-01-01")
    ∧ ((ytBackfill ytOracleEx ytAnswersEx backfillDataEx "2025-01-01").1.releases[0]?
        = some relNeedsA
      ∧ (relNeedsA.title ++ " (video)")
          ∈ (ytBackfill ytOracleEx ytAnswersEx backfillDataEx "2025-01-01").2
      ∧ FileEvent.print (relNeedsA.title ++ " (video)")
          ∈ ytBackfillEvents ytOracleEx ytAnswersEx backfillDataEx "2025-01-01") :=
  ⟨(C7_backfill_error_isolation backfillOracleEx ytOracleEx ytAnswersEx backfillDataEx
      "2025-01-01" 0).2.2.2.2.1 relNeedsA "iTunes API error: 500" rfl rfl rfl,
   (C7_backfill_error_isolation backfillOracleEx ytOracleEx ytAnswersEx backfillDataEx
      "2025-01-01" 0).2.2.2.2.2.2.2.2.2 relNeedsA "YouTube API error 500" rfl rfl rfl rfl⟩

theorem asciiLower_eq_y {c : Char} (h : asciiLower c = 'y') : c = 'y' ∨ c = 'Y' := by
  unfold asciiLower at h
  split at h
  · rename_i hc
    obtain ⟨hA, hZ⟩ := hc
    have h65 : 65 ≤ c.toNat := hA
    have h90 : c.toNat ≤ 90 := hZ
    right
    interval_cases hn : c.toNat
    case «89» => exact Char.eq_of_val_eq (UInt32.ext hn)
    all_goals simp_all
  · exact Or.inl h

theorem asciiLower_eq_n {c : Char} (h : asciiLower c = 'n') : c = 'n' ∨ c = 'N' := by
  unfold asciiLower at h
  split at h
  · rename_i hc
    obtain ⟨hA, hZ⟩ := hc
    have h65 : 65 ≤ c.toNat := hA
    have h90 : c.toNat ≤ 90 := hZ
    right
    interval_cases hn : c.toNat
    case «78» => exact Char.eq_of_val_eq (UInt32.ext hn)
    all_goals simp_all
  · exact Or.inl h

theorem jsToLower_eq_y {t : String} (h : jsToLower t = "y") : t = "y" ∨ t = "Y" := by
  obtain ⟨data⟩ := t
  have hdata : data.map asciiLower = ['y'] := congrArg String.data h
  cases data with
  | nil => simp at hdata
  | cons c cs =>
    cases cs with
    | nil =>
      simp only [List.map_cons, List.map_nil, List.cons.injEq, and_true] at hdata
      rcases asciiLower_eq_y hdata with rfl | rfl
      · exact Or.inl rfl
      · exact Or.inr rfl
    | cons d ds => simp at hdata

theorem jsToLower_eq_n {t : String} (h : jsToLower t = "n") : t = "n" ∨ t = "N" := by
  obtain ⟨data⟩ := t
  have hdata : data.map asciiLower = ['n'] := congrArg String.data h
  cases data with
  | nil => simp at hdata
  | cons c cs =>
    cases cs with
    | nil =>
      simp only [List.map_cons, List.map_nil, List.cons.injEq, and_true] at hdata
      rcases asciiLower_eq_n hdata with rfl | rfl
      · exact Or.inl rfl
      · exact Or.inr rfl
    | cons d ds => simp at hdata

/-- C9: at the confirmation prompt, a trimmed response of `y` or `Y`
accepts the proposed URL; `n`, `N`, or the empty string rejects it — the
field stays unset and the release joins the manual-attention report; any
other non-empty trimmed response is stored verbatim as the field's value,
with no URL validation. -/
theorem C9_confirm_semantics :
    ∀ (r : Release) (url answer : String),
      ((jsTrim answer = "y" ∨ jsTrim answer = "Y") →
        confirm url answer = some url
        ∧ (url ≠ "" → applyVideoChoice r url answer = ({ r with youtubeUrl := some url }, [])))
      ∧ ((jsTrim answer = "n" ∨ jsTrim answer = "N" ∨ jsTrim answer = "") →
        confirm url answer = none
        ∧ applyVideoChoice r url answer = (r, [r.title ++ " (video)"]))
      ∧ ((jsTrim answer ≠ "y" ∧ jsTrim answer ≠ "Y" ∧ jsTrim answer ≠ "n"
            ∧ jsTrim answer ≠ "N" ∧ jsTrim answer ≠ "") →
        confirm url answer = some (jsTrim answer)
        ∧ applyVideoChoice r url answer
            = ({ r with youtubeUrl := some (jsTrim answer) }, [])) := by
  intro r url answer
  refine ⟨?_, ?_, ?_⟩
  · intro hy
    have hconf : confirm url answer = some url := by
      unfold confirm
      rcases hy with hy | hy <;> rw [hy] <;> exact if_pos (by decide)
    refine ⟨hconf, fun hurl => ?_⟩
    unfold applyVideoChoice
    rw [hconf]
    simp [jsTruthy, hurl]
  · intro hn
    have hconf : confirm url answer = none := by
      unfold confirm
      rcases hn with hn | hn | hn <;> rw [hn] <;>
        exact (if_neg (by decide)).trans (if_pos (by decide))
    refine ⟨hconf, ?_⟩
    unfold applyVideoChoice
    rw [hconf]
    simp [jsTruthy]
  · intro ⟨hy, hY, hn, hN, hne⟩
    have hly : jsToLower (jsTrim answer) ≠ "y" := by
      intro hcontra
      rcases jsToLower_eq_y hcontra with h | h
      · exact hy h
      · exact hY h
    have hln : jsToLower (jsTrim answer) ≠ "n" := by
      intro hcontra
      rcases jsToLower_eq_n hcontra with h | h
      · exact hn h
      · exact hN h
    have hconf : confirm url answer = some (jsTrim answer) := by
      unfold confirm
      rw [if_neg, if_neg]
      · simp only [Bool.or_eq_true, beq_iff_eq]
        rintro (h | h)
        · exact hln h
        · exact hne h
      · simp only [beq_iff_eq]
        exact hly
    refine ⟨hconf, ?_⟩
    unfold applyVideoChoice
    rw [hconf]
    simp [jsTruthy, hne]

/-- C9 witness: concrete operator responses — `" Y "` accepts, `"n"` and
`""` reject, and a pasted URL is stored verbatim. -/
theorem C9_witness :
    (confirm "https://cand" " Y " = some "https://cand"
      ∧ applyVideoChoice relNeedsA "https://cand" " Y "
          = ({ relNeedsA with youtubeUrl := some "https://cand" }, []))
    ∧ (confirm "https://cand" "n" = none
      ∧ applyVideoChoice relNeedsA "https://cand" "n"
          = (relNeedsA, [relNeedsA.title ++ " (video)"]))
    ∧ (confirm "https://cand" "" = none
      ∧ applyVideoChoice relNeedsA "https://cand" ""
          = (relNeedsA, [relNeedsA.title ++ " (video)"]))
    ∧ (confirm "https://cand" " https://mine " = some (jsTrim " https://mine ")
      ∧ applyVideoChoice relNeedsA "https://cand" " https://mine "
          = ({ relNeedsA with youtubeUrl := some (jsTrim " https://mine ") }, [])) := by
  refine ⟨?_, ?_, ?_, ?_⟩
  · have h := (C9_confirm_semantics relNeedsA "https://cand" " Y ").1 (Or.inr (by decide))
    exact ⟨h.1, h.2 (by decide)⟩
  · exact (C9_confirm_semantics relNeedsA "https://cand" "n").2.1 (Or.inl (by decide))
  · exact (C9_confirm_semantics relNeedsA "https://cand" "").2.1 (Or.inr (Or.inr (by decide)))
  · exact (C9_confirm_semantics relNeedsA "https://cand" " https://mine ").2.2
      ⟨by decide, by decide, by decide, by decide, by decide⟩

theorem descLe_trans : ∀ a b c : SpotifyImage,
    (fun a b => decide (b.width.getD 0 ≤ a.width.getD 0)) a b = true →
    (fun a b => decide (b.width.getD 0 ≤ a.width.getD 0)) b c = true →
    (fun a b => decide (b.width.getD 0 ≤ a.width.getD 0)) a c = true := by
  intro a b c hab hbc
  simp only [decide_eq_true_eq] at hab hbc ⊢
  exact Nat.le_trans hbc hab

theorem descLe_total : ∀ a b : SpotifyImage,
    (fun a b => decide (b.width.getD 0 ≤ a.width.getD 0)) a b = true ∨
    (fun a b => decide (b.width.getD 0 ≤ a.width.getD 0)) b a = true := by
  intro a b
  simp only [decide_eq_true_eq]
  exact (Nat.le_total (b.width.getD 0) (a.width.getD 0))

theorem ascLe_trans : ∀ a b c : SpotifyImage,
    (fun a b => decide (a.width.getD 9999 ≤ b.width.getD 9999)) a b = true →
    (fun a b => decide (a.width.getD 9999 ≤ b.width.getD 9999)) b c = true →
    (fun a b => decide (a.width.getD 9999 ≤ b.width.getD 9999)) a c = true := by
  intro a b c hab hbc
  simp only [decide_eq_true_eq] at hab hbc ⊢
  exact Nat.le_trans hab hbc

theorem ascLe_total : ∀ a b : SpotifyImage,
    (fun a b => decide (a.width.getD 9999 ≤ b.width.getD 9999)) a b = true ∨
    (fun a b => decide (a.width.getD 9999 ≤ b.width.getD 9999)) b a = true := by
  intro a b
  simp only [decide_eq_true_eq]
  exact (Nat.le_total (a.width.getD 9999) (b.width.getD 9999))

/-- Whatever the minimum-width threshold, `bestArtworkUrl` returns the
head of the descending sort: either the head passes the threshold and
`find?` picks it at once, or nothing passes and the fallback is the head
again. -/
theorem bestArtworkUrl_eq_head (imgs : List SpotifyImage) (h : SpotifyImage)
    (t : List SpotifyImage)
    (heq : sortLe (fun a b => decide (b.width.getD 0 ≤ a.width.getD 0)) imgs = h :: t)
    (mw : Nat) : bestArtworkUrl (some imgs) mw = h.url := by
  unfold bestArtworkUrl
  simp only [heq]
  by_cases hp : (decide (mw ≤ h.width.getD 0)) = true
  · have hfind : (h :: t).find? (fun img => decide (mw ≤ img.width.getD 0)) = some h :=
      List.find?_cons_of_pos t hp
    rw [hfind]
  · have hnone : (h :: t).find? (fun img => decide (mw ≤ img.width.getD 0)) = none := by
      rw [List.find?_eq_none]
      intro img hmem
      have himgs : img ∈ imgs := by
        have : img ∈ sortLe (fun a b => decide (b.width.getD 0 ≤ a.width.getD 0)) imgs := by
          rw [heq]; exact hmem
        exact (mem_sortLe _ imgs img).mp this
      have hle : img.width.getD 0 ≤ h.width.getD 0 := by
        have := head_sortLe_le _ descLe_trans descLe_total imgs h t heq img himgs
        simpa using this
      simp only [decide_eq_true_eq] at hp ⊢
      omega
    rw [hnone]

theorem smallArtworkUrl_eq_head (imgs : List SpotifyImage) (h : SpotifyImage)
    (t : List SpotifyImage)
    (heq : sortLe (fun a b => decide (a.width.getD 9999 ≤ b.width.getD 9999)) imgs = h :: t) :
    smallArtworkUrl (some imgs) = h.url := by
  unfold smallArtworkUrl
  simp only [heq]

/-- C10: for every non-empty image list `bestArtworkUrl` returns the URL
of an image of maximal width (missing widths as 0) and its minimum-width
threshold never changes the result; `smallArtworkUrl` returns the URL of
an image of minimal width (missing widths as 9999); both return the empty
string for a missing or empty list, and every built release takes its two
artwork fields from them, so they are always strings. -/
theorem C10_artwork_selection :
    ∀ (imgs : List SpotifyImage),
      (imgs ≠ [] →
        (∀ minWidth : Nat, ∃ img, img ∈ imgs
          ∧ bestArtworkUrl (some imgs) minWidth = img.url
          ∧ ∀ other ∈ imgs, other.width.getD 0 ≤ img.width.getD 0)
        ∧ (∀ mw mw' : Nat, bestArtworkUrl (some imgs) mw = bestArtworkUrl (some imgs) mw')
        ∧ (∃ img, img ∈ imgs ∧ smallArtworkUrl (some imgs) = img.url
          ∧ ∀ other ∈ imgs, img.width.getD 9999 ≤ other.width.getD 9999))
      ∧ bestArtworkUrl none = "" ∧ bestArtworkUrl (some []) = ""
      ∧ smallArtworkUrl none = "" ∧ smallArtworkUrl (some ([] : List SpotifyImage)) = ""
      ∧ (∀ (existing : ReleasesData) (album : AlbumObject) (full : FullAlbum)
          (trackItems : List SpotifyTrackItem),
          (buildRelease existing album full trackItems).artworkUrl = bestArtworkUrl full.images
          ∧ (buildRelease existing album full trackItems).artworkUrlSmall
              = smallArtworkUrl full.images) := by
  intro imgs
  refine ⟨?_, rfl, rfl, rfl, rfl, fun existing album full trackItems => ⟨rfl, rfl⟩⟩
  intro hne
  have hdesc : ∃ h t,
      sortLe (fun a b => decide (b.width.getD 0 ≤ a.width.getD 0)) imgs = h :: t := by
    cases hcase : sortLe (fun a b => decide (b.width.getD 0 ≤ a.width.getD 0)) imgs with
    | nil => exact absurd ((sortLe_eq_nil_iff _ imgs).mp hcase) hne
    | cons h t => exact ⟨h, t, rfl⟩
  have hasc : ∃ h t,
      sortLe (fun a b => decide (a.width.getD 9999 ≤ b.width.getD 9999)) imgs = h :: t := by
    cases hcase : sortLe (fun a b => decide (a.width.getD 9999 ≤ b.width.getD 9999)) imgs with
    | nil => exact absurd ((sortLe_eq_nil_iff _ imgs).mp hcase) hne
    | cons h t => exact ⟨h, t, rfl⟩
  obtain ⟨hd, td, heqd⟩ := hdesc
  obtain ⟨ha, ta, heqa⟩ := hasc
  have hdmem : hd ∈ imgs := by
    have : hd ∈ sortLe (fun a b => decide (b.width.getD 0 ≤ a.width.getD 0)) imgs := by
      rw [heqd]; exact List.mem_cons_self hd td
    exact (mem_sortLe _ imgs hd).mp this
  have hamem : ha ∈ imgs := by
    have : ha ∈ sortLe (fun a b => decide (a.width.getD 9999 ≤ b.width.getD 9999)) imgs := by
      rw [heqa]; exact List.mem_cons_self ha ta
    exact (mem_sortLe _ imgs ha).mp this
  refine ⟨?_, ?_, ?_⟩
  · intro minWidth
    refine ⟨hd, hdmem, bestArtworkUrl_eq_head imgs hd td heqd minWidth, ?_⟩
    intro other hother
    have := head_sortLe_le _ descLe_trans descLe_total imgs hd td heqd other hother
    simpa using this
  · intro mw mw'
    rw [bestArtworkUrl_eq_head imgs hd td heqd mw, bestArtworkUrl_eq_head imgs hd td heqd mw']
  · refine ⟨ha, hamem, smallArtworkUrl_eq_head imgs ha ta heqa, ?_⟩
    intro other hother
    have := head_sortLe_le _ ascLe_trans ascLe_total imgs ha ta heqa other hother
    simpa using this

/-- C10 witness: on a concrete image list the widest image's URL is chosen
(whatever the threshold), the narrowest for the small field, and empty
inputs yield the empty string. -/
theorem C10_witness :
    (∃ img, img ∈ [SpotifyImage.mk "https://big" (some 640),
        SpotifyImage.mk "https://small" (some 64), SpotifyImage.mk "https://nw" none]
      ∧ bestArtworkUrl (some [SpotifyImage.mk "https://big" (some 640),
          SpotifyImage.mk "https://small" (some 64), SpotifyImage.mk "https://nw" none]) 600
          = img.url
      ∧ ∀ other ∈ [SpotifyImage.mk "https://big" (some 640),
          SpotifyImage.mk "https://small" (some 64), SpotifyImage.mk "https://nw" none],
          other.width.getD 0 ≤ img.width.getD 0)
    ∧ bestArtworkUrl none = ""
    ∧ smallArtworkUrl none = "" := by
  refine ⟨?_, rfl, rfl⟩
  exact (((C10_artwork_selection [SpotifyImage.mk "https://big" (some 640),
    SpotifyImage.mk "https://small" (some 64), SpotifyImage.mk "https://nw" none]).1
    (by decide)).1) 600

/-- C2: if any HTTP request performed during a full resync — the token
exchange, a release-list page, a per-release detail fetch, or a track
page — gets a non-success response, the run aborts with an error and the
persisted dataset is left exactly as it was: no partially built dataset is
ever written. -/
theorem C2_resync_fail_closed :
    ∀ (f : Fetcher) (fuel : Nat) (dateVal : String → Int) (stamp : String)
      (prior : ReleasesData) (req : Req),
      req ∈ (mainResync f fuel dateVal stamp prior).2.1 →
      reqFails f req = true →
      (mainResync f fuel dateVal stamp prior).1 = prior
      ∧ ∃ e, (mainResync f fuel dateVal stamp prior).2.2 = Except.error e := by
  intro f fuel dateVal stamp prior req hmem hfail
  have hg := mGood_mainBuild f fuel prior
  rcases hb : mainBuild f fuel prior with ⟨trace, res⟩
  rw [hb] at hg
  unfold mainResync at hmem ⊢
  rw [hb] at hmem ⊢
  cases res with
  | error e => exact ⟨rfl, e, rfl⟩
  | ok rels =>
    simp only at hmem
    rcases hg ⟨req, hmem, hfail⟩ with ⟨e, he⟩
    simp at he

/-- A fetcher whose token exchange is rejected. -/
def fetcherFail : Fetcher :=
  { tokenResp := Except.error "Token request failed: 401"
    albumPageResp := fun _ => Except.error "unreached"
    albumDetailResp := fun _ => Except.error "unreached"
    trackPageResp := fun _ => Except.error "unreached" }

/-- C2 witness: a rejected token exchange leaves the concrete prior
dataset untouched and the run ends in an error. -/
theorem C2_witness :
    (mainResync fetcherFail 1 (fun _ => 0) "2025-01-01" priorEx).1 = priorEx
    ∧ ∃ e, (mainResync fetcherFail 1 (fun _ => 0) "2025-01-01" priorEx).2.2
        = Except.error e :=
  C2_resync_fail_closed fetcherFail 1 (fun _ => 0) "2025-01-01" priorEx Req.token
    (by decide) (by decide)

/-- The summary album object the release-list endpoint returns for the
catalog identifier `abc`. -/
def albumAbc : AlbumObject :=
  { id := "abc", name := "T", album_type := "single", release_date := "2024-05-05",
    spotifyUrlField := none }

/-- The detail fetch for `abc`: no images, no tracks, and in particular no
Apple Music data — Spotify never supplies any. -/
def fullAbc : FullAlbum :=
  { images := none, tracksItems := [], tracksNext := none, total_tracks := some 0 }

/-- A fetcher serving exactly the release `abc`. -/
def fetcher4 : Fetcher :=
  { tokenResp := Except.ok "tok"
    albumPageResp := fun url =>
      if url == resolveUrl initialAlbumsUrl then Except.ok { items := [albumAbc], next := none }
      else Except.error "unexpected"
    albumDetailResp := fun url =>
      if url == resolveUrl ("/v1/albums/abc?market=US") then Except.ok fullAbc
      else Except.error "unexpected"
    trackPageResp := fun _ => Except.error "unexpected" }

/-- A prior dataset holding only the release `single-abc` with a manually
curated `appleMusicUrl`. -/
def prior4 : ReleasesData :=
  { lastUpdated := "2024-01-01", artistName := "Jade Three",
    spotifyArtistId := ARTIST_ID, releases := [relExisting] }

/-- C4: after a full resync that re-fetches catalog identifier `abc` with
no Apple Music data available from Spotify, the rebuilt release
`single-abc` still carries `appleMusicUrl = "https://existing"` from the
prior dataset. -/
theorem C4_resync_preserves_apple_url :
    ((mainResync fetcher4 2 (fun _ => 0) "2024-06-01" prior4).1.releases.map
      (fun r => (r.id, r.appleMusicUrl))) = [("single-abc", some "https://existing")]
    ∧ isErr (mainResync fetcher4 2 (fun _ => 0) "2024-06-01" prior4).2.2 = false := by
  exact ⟨by decide, by decide⟩

end JadeThree
